import Mathlib

/-!
Verification of the Solaris/SPARC CPU-feature and cache-geometry probe
(`vm_version_solaris_sparc.cpp`): the `UniqueValueVisitor` state machine,
the `CPUVisitor` device-tree walk, the `PICL` dynamic-library binding and
constructor, and `VM_Version::platform_features` bitmask assembly.
-/

namespace SparcProbe

/-- The state of a `UniqueValueVisitor`: `INITIAL` (no assignment yet),
`ASSIGNED` (holding the unique observed value), `INCONSISTENT`
(two differing values were observed). The C++ code keeps `_state` and
`_value` separately; `assigned` carries the value. -/
inductive UVState where
  | initial
  | assigned (v : Int)
  | inconsistent
deriving DecidableEq, Repr

/-- `UniqueValueVisitor::is_assigned()`. -/
def UVState.isAssigned : UVState → Bool
  | .assigned _ => true
  | _ => false

/-- `UniqueValueVisitor::is_inconsistent()`. -/
def UVState.isInconsistent : UVState → Bool
  | .inconsistent => true
  | _ => false

/-- `UniqueValueVisitor::value()` with its assertion `_state == ASSIGNED`
made explicit: `none` means the assertion would fire. -/
def UVState.value? : UVState → Option Int
  | .assigned v => some v
  | _ => none

/-- `UniqueValueVisitor::visit(nodeh, name)` in product (release) semantics,
where `assert` is a no-op. The `read` argument is the outcome of
`get_int_property` on this node: `some curr` on `PICL_SUCCESS`, `none` on
failure. Returns the new state and the C++ return value. In the
`INCONSISTENT` state (never reached by the program's call sites) the
release build falls through to the `set_value` assignment. -/
def uvVisit (s : UVState) (read : Option Int) : UVState × Bool :=
  match read with
  | some curr =>
    match s with
    | .assigned v => (if curr ≠ v then UVState.inconsistent else UVState.assigned v, true)
    | _ => (UVState.assigned curr, true)
  | none => (s, false)

/-- `UniqueValueVisitor::visit` with every assertion made explicit:
`none` means some `assert` in `visit`, `set_value` or `value` would fire
(`!is_inconsistent()` on entry, `_state == INITIAL` in `set_value`,
`_state == ASSIGNED` in `value`). -/
def uvVisitChecked (s : UVState) (read : Option Int) : Option (UVState × Bool) :=
  if s = UVState.inconsistent then none
  else
    match read with
    | some curr =>
      if s.isAssigned then
        match s.value? with
        | some v => some (if curr ≠ v then UVState.inconsistent else UVState.assigned v, true)
        | none => none
      else if s = UVState.initial then some (UVState.assigned curr, true)
      else none
    | none => some (s, false)

/-- One successful reading fed to a cache-level tracker during a walk:
the call sites (`CPUVisitor::visit` lines 155-156 and 168-169) guard each
`visit` call with `!is_inconsistent()`, so an inconsistent tracker is not
fed further readings. -/
def feedReading (s : UVState) (v : Int) : UVState :=
  if s = UVState.inconsistent then s else (uvVisit s (some v)).1

/-- A whole sequence of successful readings fed to one tracker. -/
def runReadings (s : UVState) (l : List Int) : UVState :=
  l.foldl feedReading s

theorem feedReading_initial (v : Int) : feedReading UVState.initial v = UVState.assigned v := rfl

theorem feedReading_inconsistent (v : Int) :
    feedReading UVState.inconsistent v = UVState.inconsistent := rfl

theorem feedReading_assigned (v w : Int) :
    feedReading (UVState.assigned v) w =
      if w = v then UVState.assigned v else UVState.inconsistent := by
  simp only [feedReading, uvVisit, reduceCtorEq, if_false, ite_not]

theorem runReadings_inconsistent (l : List Int) :
    runReadings UVState.inconsistent l = UVState.inconsistent := by
  induction l with
  | nil => rfl
  | cons b t ih => simpa [runReadings, feedReading_inconsistent] using ih

/-- Characterization of a run from `assigned v`: it stays `assigned v`
exactly when every further reading equals `v`, else ends `inconsistent`. -/
theorem runReadings_assigned (v : Int) (l : List Int) :
    runReadings (UVState.assigned v) l =
      if l.all (fun x => x = v) then UVState.assigned v else UVState.inconsistent := by
  induction l with
  | nil => simp [runReadings]
  | cons a t ih =>
    simp only [runReadings, List.foldl_cons, List.all_cons] at *
    rw [feedReading_assigned]
    by_cases hav : a = v
    · simp [hav, ih]
    · have h2 := runReadings_inconsistent t
      simp only [runReadings] at h2
      simp [hav, h2]

/-- The two property names tried for the L2 cache line size:
`"l2-cache-line-size"` (primary) and `"l2-dcache-line-size"` (fallback). -/
inductive L2Name where
  | primary
  | fallback
deriving DecidableEq, Repr

/-- One device node of the walked class, abstracted by the outcome of
`get_int_property` on it for each of the three property names the walk
reads (`none` models `PICL_FAILURE`). -/
structure Node where
  l1_dcache_line_size : Option Int
  l2_cache_line_size : Option Int
  l2_dcache_line_size : Option Int
deriving DecidableEq, Repr

/-- Reading the L2 property under the given name from a node. -/
def Node.readL2 (n : Node) : L2Name → Option Int
  | .primary => n.l2_cache_line_size
  | .fallback => n.l2_dcache_line_size

/-- The state carried across calls of `CPUVisitor::visit`: the two
trackers, the countdown `_limit`, and the memoized
`l2_data_cache_line_property_name` (`none` before the first visit). -/
structure WalkState where
  l1 : UVState
  l2 : UVState
  limit : Int
  l2name : Option L2Name
deriving DecidableEq, Repr

/-- The return value of `CPUVisitor::visit`: `PICL_WALK_TERMINATE` or
`PICL_WALK_CONTINUE`. -/
inductive WalkCmd where
  | terminate
  | keepGoing
deriving DecidableEq, Repr

/-- The state a fresh `CPUVisitor(picl, limit)` starts its walk in, with
the memoized property name still unset. -/
def initWalkState (limit : Int) : WalkState :=
  { l1 := UVState.initial, l2 := UVState.initial, limit := limit, l2name := none }

/-- Lines 155-157 of `CPUVisitor::visit`: feed the L1 tracker, guarded
by `!is_inconsistent()` (the return value is ignored). -/
def cpuVisitL1 (n : Node) (st : WalkState) : UVState :=
  if st.l1.isInconsistent then st.l1 else (uvVisit st.l1 n.l1_dcache_line_size).1

/-- Lines 158-171 of `CPUVisitor::visit`: on the first visit memoize the
L2 property name (primary, falling back on this same node), on later
visits reuse the memoized name, guarded by `!is_inconsistent()`. Returns
the new L2 tracker state and the memoized name. -/
def cpuVisitL2 (n : Node) (st : WalkState) : UVState × L2Name :=
  match st.l2name with
  | none =>
    match uvVisit st.l2 (n.readL2 L2Name.primary) with
    | (s, true) => (s, L2Name.primary)
    | (s, false) => ((uvVisit s (n.readL2 L2Name.fallback)).1, L2Name.fallback)
  | some nm =>
    if st.l2.isInconsistent then (st.l2, nm)
    else ((uvVisit st.l2 (n.readL2 nm)).1, nm)

/-- `CPUVisitor::visit(nodeh, arg)` in product semantics: feed the L1
tracker, resolve or reuse the memoized L2 property name and feed the L2
tracker, then decide between `PICL_WALK_TERMINATE` (both trackers
inconsistent, or budget exhausted after the decrement) and
`PICL_WALK_CONTINUE`. -/
def cpuVisit (n : Node) (st : WalkState) : WalkState × WalkCmd :=
  let l1' := cpuVisitL1 n st
  let p := cpuVisitL2 n st
  if l1'.isInconsistent && p.1.isInconsistent then
    ({ l1 := l1', l2 := p.1, limit := st.limit, l2name := some p.2 }, WalkCmd.terminate)
  else
    let lim := st.limit - 1
    ({ l1 := l1', l2 := p.1, limit := lim, l2name := some p.2 },
      if lim ≤ 0 then WalkCmd.terminate else WalkCmd.keepGoing)

/-- `picl_walk_tree_by_class` driving `CPUVisitor::visit` over the nodes
of the selected class, in order, stopping when the callback returns
`PICL_WALK_TERMINATE`. Returns the final visitor state and the number of
nodes actually visited. -/
def runWalk (nodes : List Node) (st : WalkState) : WalkState × Nat :=
  match nodes with
  | [] => (st, 0)
  | n :: rest =>
    match cpuVisit n st with
    | (st', WalkCmd.terminate) => (st', 1)
    | (st', WalkCmd.keepGoing) =>
      let r := runWalk rest st'
      (r.1, r.2 + 1)

/-- The L1 step of `CPUVisitor::visit` with assertions made explicit. -/
def cpuVisitL1Checked (n : Node) (st : WalkState) : Option UVState :=
  if st.l1.isInconsistent then some st.l1
  else (uvVisitChecked st.l1 n.l1_dcache_line_size).map Prod.fst

/-- The L2 step of `CPUVisitor::visit` with assertions made explicit,
including the `assert(!l2_visitor->is_inconsistent(), "First iteration
cannot be inconsistent")`. -/
def cpuVisitL2Checked (n : Node) (st : WalkState) : Option (UVState × L2Name) :=
  match st.l2name with
  | none =>
    if st.l2.isInconsistent then none
    else
      match uvVisitChecked st.l2 (n.readL2 L2Name.primary) with
      | none => none
      | some (s, true) => some (s, L2Name.primary)
      | some (s, false) =>
        match uvVisitChecked s (n.readL2 L2Name.fallback) with
        | none => none
        | some (s2, _) => some (s2, L2Name.fallback)
  | some nm =>
    if st.l2.isInconsistent then some (st.l2, nm)
    else (uvVisitChecked st.l2 (n.readL2 nm)).map (fun p => (p.1, nm))

/-- `CPUVisitor::visit` with every assertion made explicit (`none` means
an assertion would fire): the first-iteration assertion, and the
assertions inside every `UniqueValueVisitor` call it makes. -/
def cpuVisitChecked (n : Node) (st : WalkState) : Option (WalkState × WalkCmd) :=
  match cpuVisitL1Checked n st with
  | none => none
  | some l1' =>
    match cpuVisitL2Checked n st with
    | none => none
    | some p =>
      if l1'.isInconsistent && p.1.isInconsistent then
        some ({ l1 := l1', l2 := p.1, limit := st.limit, l2name := some p.2 },
          WalkCmd.terminate)
      else
        let lim := st.limit - 1
        some ({ l1 := l1', l2 := p.1, limit := lim, l2name := some p.2 },
          if lim ≤ 0 then WalkCmd.terminate else WalkCmd.keepGoing)

/-- The walk driven through the assertion-checked callback. -/
def runWalkChecked (nodes : List Node) (st : WalkState) : Option (WalkState × Nat) :=
  match nodes with
  | [] => some (st, 0)
  | n :: rest =>
    match cpuVisitChecked n st with
    | none => none
    | some (st', WalkCmd.terminate) => some (st', 1)
    | some (st', WalkCmd.keepGoing) =>
      match runWalkChecked rest st' with
      | none => none
      | some r => some (r.1, r.2 + 1)

/-- The readout in the `PICL` constructor after the walk: each field is
written only if the tracker `is_assigned()`, else it keeps its initial 0. -/
def readout (st : WalkState) : Int × Int :=
  (if st.l1.isAssigned then (st.l1.value?).getD 0 else 0,
   if st.l2.isAssigned then (st.l2.value?).getD 0 else 0)

/-- The readout with the `value()` assertions made explicit. -/
def readoutChecked (st : WalkState) : Option (Int × Int) :=
  let a : Option Int :=
    if st.l1.isAssigned then st.l1.value? else some 0
  let b : Option Int :=
    if st.l2.isAssigned then st.l2.value? else some 0
  match a, b with
  | some x, some y => some (x, y)
  | _, _ => none

/-- The external outcomes the `PICL` object depends on: whether
`dlopen("libpicl.so.1")` succeeds, whether each of the seven `dlsym`
lookups in `bind_library_functions` succeeds, the results of
`picl_initialize` and `picl_get_root`, the device nodes of each class the
walk may select, and `os::processor_count()`. -/
structure PiclEnv where
  dlopen_ok : Bool
  sym_picl_init : Bool
  sym_picl_shutdown : Bool
  sym_picl_get_root : Bool
  sym_picl_walk_tree_by_class : Bool
  sym_picl_get_prop_by_name : Bool
  sym_picl_get_propval : Bool
  sym_picl_get_propinfo : Bool
  initialize_ok : Bool
  get_root_ok : Bool
  cpu_nodes : List Node
  core_nodes : List Node
  processor_count : Int
deriving DecidableEq, Repr

/-- `PICL::bind_library_functions()`: all seven symbols must resolve. -/
def bind_library_functions (e : PiclEnv) : Bool :=
  e.sym_picl_init && e.sym_picl_shutdown && e.sym_picl_get_root &&
  e.sym_picl_walk_tree_by_class && e.sym_picl_get_prop_by_name &&
  e.sym_picl_get_propval && e.sym_picl_get_propinfo

/-- `PICL::open_library()`: `dlopen` must succeed and then every symbol
must bind; a partial binding closes the library and reports failure. -/
def open_library (e : PiclEnv) : Bool :=
  e.dlopen_ok && bind_library_functions e

/-- The `PICL(is_fujitsu, is_sun4v)` constructor: both cache-line fields
start at 0; on `open_library` failure it returns at once; otherwise it
initializes the session, fetches the root, walks the `"cpu"` (or,
for Fujitsu, `"core"`) nodes with budget 1 for sun4v non-Fujitsu machines
and `os::processor_count()` otherwise, and reads out the assigned
trackers. Returns `(_L1_data_cache_line_size, _L2_data_cache_line_size)`. -/
def piclConstruct (e : PiclEnv) (is_fujitsu is_sun4v : Bool) : Int × Int :=
  if !open_library e then (0, 0)
  else if e.initialize_ok then
    if e.get_root_ok then
      let nodes := if is_fujitsu then e.core_nodes else e.cpu_nodes
      let limit : Int := if is_sun4v && !is_fujitsu then 1 else e.processor_count
      readout (runWalk nodes (initWalkState limit)).1
    else (0, 0)
  else (0, 0)

/-- Modelled from the spec: the named feature-bit masks consumed by the
assembler are declared in `vm_version_sparc.hpp`, which is outside the
source unit; each named hardware capability is one distinct bit of the
feature bitmask, and the generic v8/v9 masks combine the baseline v8
capabilities with the corresponding architecture marker. -/
def v8_instructions_m : Nat := 1 <<< 0

def hardware_mul32_m : Nat := 1 <<< 1

def hardware_div32_m : Nat := 1 <<< 2

def hardware_fsmuld_m : Nat := 1 <<< 3

def hardware_popc_m : Nat := 1 <<< 4

def v9_instructions_m : Nat := 1 <<< 5

def vis1_instructions_m : Nat := 1 <<< 6

def vis2_instructions_m : Nat := 1 <<< 7

def sun4v_m : Nat := 1 <<< 8

def blk_init_instructions_m : Nat := 1 <<< 9

def fmaf_instructions_m : Nat := 1 <<< 10

def fmau_instructions_m : Nat := 1 <<< 11

def vis3_instructions_m : Nat := 1 <<< 12

def cbcond_instructions_m : Nat := 1 <<< 13

def sparc64_family_m : Nat := 1 <<< 14

def M_family_m : Nat := 1 <<< 15

def T_family_m : Nat := 1 <<< 16

def T1_model_m : Nat := 1 <<< 17

def sparc5_instructions_m : Nat := 1 <<< 18

def aes_instructions_m : Nat := 1 <<< 19

def sha1_instruction_m : Nat := 1 <<< 20

def sha256_instruction_m : Nat := 1 <<< 21

def sha512_instruction_m : Nat := 1 <<< 22

/-- `generic_v8_m` from `vm_version_sparc.hpp` (modelled from the spec as
the baseline v8 capability set). -/
def generic_v8_m : Nat :=
  v8_instructions_m ||| hardware_mul32_m ||| hardware_div32_m ||| hardware_fsmuld_m

/-- `generic_v9_m` from `vm_version_sparc.hpp` (modelled from the spec as
the v8 baseline plus the v9 marker). -/
def generic_v9_m : Nat := generic_v8_m ||| v9_instructions_m

/-- `AV_SPARC_MUL32` from the Solaris `sys/auxv_SPARC.h` interface. -/
def AV_SPARC_MUL32 : Nat := 0x0001

/-- `AV_SPARC_DIV32` from `sys/auxv_SPARC.h`. -/
def AV_SPARC_DIV32 : Nat := 0x0002

/-- `AV_SPARC_FSMULD` from `sys/auxv_SPARC.h`. -/
def AV_SPARC_FSMULD : Nat := 0x0004

/-- `AV_SPARC_V8PLUS` from `sys/auxv_SPARC.h`. -/
def AV_SPARC_V8PLUS : Nat := 0x0008

/-- `AV_SPARC_POPC` from `sys/auxv_SPARC.h`. -/
def AV_SPARC_POPC : Nat := 0x0010

/-- `AV_SPARC_VIS` from `sys/auxv_SPARC.h`. -/
def AV_SPARC_VIS : Nat := 0x0020

/-- `AV_SPARC_VIS2` from `sys/auxv_SPARC.h`. -/
def AV_SPARC_VIS2 : Nat := 0x0040

/-- `AV_SPARC_ASI_BLK_INIT`, defined in the source when absent. -/
def AV_SPARC_ASI_BLK_INIT : Nat := 0x0080

/-- `AV_SPARC_FMAF`, defined in the source when absent. -/
def AV_SPARC_FMAF : Nat := 0x0100

/-- `AV_SPARC_FMAU`, defined in the source when absent. -/
def AV_SPARC_FMAU : Nat := 0x0200

/-- `AV_SPARC_VIS3`, defined in the source when absent. -/
def AV_SPARC_VIS3 : Nat := 0x0400

/-- `AV_SPARC_CBCOND`, defined in the source when absent. -/
def AV_SPARC_CBCOND : Nat := 0x10000000

/-- `AV_SPARC_AES`, defined in the source when absent. -/
def AV_SPARC_AES : Nat := 0x00020000

/-- `AV_SPARC_SHA1`, defined in the source when absent. -/
def AV_SPARC_SHA1 : Nat := 0x00400000

/-- `AV_SPARC_SHA256`, defined in the source when absent. -/
def AV_SPARC_SHA256 : Nat := 0x00800000

/-- `AV_SPARC_SHA512`, defined in the source when absent. -/
def AV_SPARC_SHA512 : Nat := 0x01000000

/-- `AV2_SPARC_SPARC5`, defined in the source when absent. -/
def AV2_SPARC_SPARC5 : Nat := 0x00000008

/-- Reading a NUL-terminated C string at an index: positions past the end
read the terminating NUL. The source only indexes past a matched
substring, so every read lands on a real character or the terminator. -/
def cstrAt (s : List Char) (i : Nat) : Char := s.getD i (Char.ofNat 0)

/-- `strstr(hay, needle)`: the index of the first occurrence of `needle`
in `hay`, or `none` (a NULL result). -/
def strstrIdx (hay needle : List Char) : Option Nat :=
  if needle.isPrefixOf hay then some 0
  else
    match hay with
    | [] => none
    | _ :: t => (strstrIdx t needle).map (· + 1)

/-- `strstr(hay, needle) != NULL`. -/
def cContains (hay needle : List Char) : Bool := (strstrIdx hay needle).isSome

/-- The C idiom `if (cond) features |= mask;`. -/
def orIf (c : Prop) [Decidable c] (features mask : Nat) : Nat :=
  if c then features ||| mask else features

/-- The mapping of the `getisax` capability words onto feature bits
(lines 308-383): each recognized bit of `avs[0]`, and of `avs[1]` when
`avn > 1`, ORs in its feature mask. -/
def getisax_map (avn avs0 avs1 : Nat) (features : Nat) : Nat :=
  let av := avs0
  let features := orIf (av &&& AV_SPARC_MUL32 ≠ 0) features hardware_mul32_m
  let features := orIf (av &&& AV_SPARC_DIV32 ≠ 0) features hardware_div32_m
  let features := orIf (av &&& AV_SPARC_FSMULD ≠ 0) features hardware_fsmuld_m
  let features := orIf (av &&& AV_SPARC_V8PLUS ≠ 0) features v9_instructions_m
  let features := orIf (av &&& AV_SPARC_POPC ≠ 0) features hardware_popc_m
  let features := orIf (av &&& AV_SPARC_VIS ≠ 0) features vis1_instructions_m
  let features := orIf (av &&& AV_SPARC_VIS2 ≠ 0) features vis2_instructions_m
  let features :=
    if avn > 1 then orIf (avs1 &&& AV2_SPARC_SPARC5 ≠ 0) features sparc5_instructions_m
    else features
  let features := orIf (av &&& AV_SPARC_ASI_BLK_INIT ≠ 0) features blk_init_instructions_m
  let features := orIf (av &&& AV_SPARC_FMAF ≠ 0) features fmaf_instructions_m
  let features := orIf (av &&& AV_SPARC_FMAU ≠ 0) features fmau_instructions_m
  let features := orIf (av &&& AV_SPARC_VIS3 ≠ 0) features vis3_instructions_m
  let features := orIf (av &&& AV_SPARC_CBCOND ≠ 0) features cbcond_instructions_m
  let features := orIf (av &&& AV_SPARC_AES ≠ 0) features aes_instructions_m
  let features := orIf (av &&& AV_SPARC_SHA1 ≠ 0) features sha1_instruction_m
  let features := orIf (av &&& AV_SPARC_SHA256 ≠ 0) features sha256_instruction_m
  orIf (av &&& AV_SPARC_SHA512 ≠ 0) features sha512_instruction_m

/-- The whole `supports_getisax` branch (lines 299-384): the two
`do_sysinfo` architecture checks, then the capability-word mapping.
`arch32_is_sparc` and `arch64_is_sparcv9` are the outcomes of comparing
`sysinfo(SI_ARCHITECTURE_32/64)` with `"sparc"` / `"sparcv9"`. -/
def getisax_branch (arch32_is_sparc arch64_is_sparcv9 : Bool)
    (avn avs0 avs1 : Nat) (features : Nat) : Nat :=
  let features := if arch32_is_sparc then features ||| v8_instructions_m else features
  let features := if arch64_is_sparcv9 then features ||| generic_v9_m else features
  getisax_map avn avs0 avs1 features

/-- The `"sparc"` pattern match of the legacy `SI_ISALIST` branch
(lines 399-409): `sparc_string[5..7]` select among hardware mul/div,
v8plus (`generic_v9_m`), plain v8 (`generic_v8_m`) and v9. -/
def legacy_sparc_part (buf : List Char) (features : Nat) : Nat :=
  match strstrIdx buf ['s', 'p', 'a', 'r', 'c'] with
  | some i =>
    let features := features ||| v8_instructions_m
    if cstrAt buf (i + 5) = 'v' then
      if cstrAt buf (i + 6) = '8' then
        if cstrAt buf (i + 7) = '-' then features ||| hardware_mul32_m ||| hardware_div32_m
        else if cstrAt buf (i + 7) = 'p' then features ||| generic_v9_m
        else features ||| generic_v8_m
      else if cstrAt buf (i + 6) = '9' then features ||| generic_v9_m
      else features
    else features
  | none => features

/-- The `"vis"` pattern match of the legacy branch (lines 412-415). -/
def legacy_vis_part (buf : List Char) (features : Nat) : Nat :=
  match strstrIdx buf ['v', 'i', 's'] with
  | some j =>
    let features := features ||| vis1_instructions_m
    if cstrAt buf (j + 3) = '2' then features ||| vis2_instructions_m else features
  | none => features

/-- The legacy `SI_ISALIST` branch (lines 392-419) on a successfully
read capability-list buffer. -/
def legacy_branch (buf : List Char) (features : Nat) : Nat :=
  legacy_vis_part buf (legacy_sparc_part buf features)

/-- The kstat `cpu_info.implementation` classification (lines 461-486):
uppercase the string, then check `"SPARC64"`, `"SPARC-M"`, `"SPARC-T"`
(refined by `"SPARC-T1"`) in that priority order. The final `else` only
adjusts a diagnostic label and sets no bits. -/
def impl_branch (implementation : List Char) (features : Nat) : Nat :=
  let impl := implementation.map Char.toUpper
  if cContains impl "SPARC64".toList then features ||| sparc64_family_m
  else if cContains impl "SPARC-M".toList then features ||| (M_family_m ||| T_family_m)
  else if cContains impl "SPARC-T".toList then
    let features := features ||| T_family_m
    if cContains impl "SPARC-T1".toList then features ||| T1_model_m else features
  else features

/-- The external inputs of `VM_Version::platform_features` other than the
PICL probe: whether `getisax(2)` is supported, the outcomes of the
`sysinfo` string comparisons, the `getisax` word count and words, the
`SI_ISALIST` buffer when it was read successfully (`none` models a failed
`malloc` or re-read), the `SI_MACHINE == "sun4v"` comparison, and the
kstat `cpu_info` implementation string when the record and field were
found. -/
structure SparcEnv where
  supports_getisax : Bool
  arch32_is_sparc : Bool
  arch64_is_sparcv9 : Bool
  avn : Nat
  avs0 : Nat
  avs1 : Nat
  isalist : Option (List Char)
  machine_is_sun4v : Bool
  implementation : Option (List Char)
deriving DecidableEq, Repr

/-- Modelled from the spec: the process-wide CPU description state that
`platform_features` may touch lives in the `VM_Version` class declared
outside this source unit; it holds the externally visible L1 and L2
data-cache-line-size fields, and `rest` stands for every other
process-wide field. -/
structure VMGlobals where
  L1_data_cache_line_size : Int
  L2_data_cache_line_size : Int
  rest : Int
deriving DecidableEq, Repr

/-- `VM_Version::platform_features(features)` (lines 296-501): assemble
the feature bitmask from the capability query (structured or legacy),
the machine-type query and the kstat implementation string, then run the
PICL cache probe parameterized by the computed family bits and store its
L2 value into the process-wide state. Returns the final bitmask and the
updated process-wide state. -/
def platform_features (env : SparcEnv) (pe : PiclEnv) (features : Nat)
    (g : VMGlobals) : Nat × VMGlobals :=
  let features :=
    if env.supports_getisax then
      getisax_branch env.arch32_is_sparc env.arch64_is_sparcv9 env.avn env.avs0 env.avs1 features
    else
      match env.isalist with
      | some buf => legacy_branch buf features
      | none => features
  let features := if env.machine_is_sun4v then features ||| sun4v_m else features
  let features :=
    match env.implementation with
    | some impl => impl_branch impl features
    | none => features
  let picl := piclConstruct pe (features &&& sparc64_family_m ≠ 0) (features &&& sun4v_m ≠ 0)
  (features, { g with L2_data_cache_line_size := picl.2 })

/-- `a` is a bitwise subset of `b`. -/
def subMask (a b : Nat) : Prop := a ||| b = b

theorem subMask_refl (a : Nat) : subMask a a := Nat.or_self a

theorem subMask_or_left (a m : Nat) : subMask a (a ||| m) := by
  unfold subMask
  rw [← Nat.or_assoc, Nat.or_self]

theorem subMask_or_right (a m : Nat) : subMask a (m ||| a) := by
  unfold subMask
  rw [Nat.or_comm m a, ← Nat.or_assoc, Nat.or_self]

theorem subMask_trans {a b c : Nat} (h1 : subMask a b) (h2 : subMask b c) : subMask a c := by
  unfold subMask at *
  rw [← h2, ← Nat.or_assoc, h1]

theorem subMask_orStep {a b : Nat} (h : subMask a b) (m : Nat) : subMask a (b ||| m) :=
  subMask_trans h (subMask_or_left b m)

theorem subMask_orIf {a b : Nat} (c : Prop) [Decidable c] (m : Nat) (h : subMask a b) :
    subMask a (orIf c b m) := by
  unfold orIf
  split
  · exact subMask_orStep h m
  · exact h

theorem subMask_ite {a x y : Nat} (c : Prop) [Decidable c]
    (h1 : subMask a x) (h2 : subMask a y) : subMask a (if c then x else y) := by
  split
  · exact h1
  · exact h2

theorem subMask_and {a b : Nat} (h : subMask a b) : a &&& b = a := by
  apply Nat.eq_of_testBit_eq
  intro i
  have hb := congrArg (fun t => Nat.testBit t i) h
  simp only [Nat.testBit_or] at hb
  simp only [Nat.testBit_and]
  cases ha : a.testBit i <;> cases hbb : b.testBit i <;> simp_all

theorem subMask_testBit {a b : Nat} (h : subMask a b) (i : Nat)
    (hi : a.testBit i = true) : b.testBit i = true := by
  have hb := congrArg (fun t => Nat.testBit t i) h
  simp only [Nat.testBit_or, hi, Bool.true_or] at hb
  exact hb.symm

theorem getisax_map_mono (avn avs0 avs1 x : Nat) : subMask x (getisax_map avn avs0 avs1 x) := by
  simp only [getisax_map]
  repeat
    first
    | exact subMask_refl x
    | apply subMask_orIf
    | apply subMask_ite

theorem getisax_branch_mono (a32 a64 : Bool) (avn avs0 avs1 x : Nat) :
    subMask x (getisax_branch a32 a64 avn avs0 avs1 x) := by
  simp only [getisax_branch]
  apply subMask_trans _ (getisax_map_mono avn avs0 avs1 _)
  cases a32 <;> cases a64 <;> simp <;>
    first
    | exact subMask_refl x
    | exact subMask_or_left x _
    | exact subMask_orStep (subMask_or_left x _) _

theorem legacy_sparc_part_mono (buf : List Char) (x : Nat) :
    subMask x (legacy_sparc_part buf x) := by
  simp only [legacy_sparc_part]
  split
  · repeat
      first
      | exact subMask_refl x
      | exact subMask_or_left x _
      | apply subMask_ite
      | apply subMask_orStep
  · exact subMask_refl x

theorem legacy_vis_part_mono (buf : List Char) (x : Nat) :
    subMask x (legacy_vis_part buf x) := by
  simp only [legacy_vis_part]
  split
  · repeat
      first
      | exact subMask_refl x
      | exact subMask_or_left x _
      | apply subMask_ite
      | apply subMask_orStep
  · exact subMask_refl x

theorem legacy_branch_mono (buf : List Char) (x : Nat) : subMask x (legacy_branch buf x) := by
  simp only [legacy_branch]
  exact subMask_trans (legacy_sparc_part_mono buf x) (legacy_vis_part_mono buf _)

theorem impl_branch_mono (impl : List Char) (x : Nat) : subMask x (impl_branch impl x) := by
  simp only [impl_branch]
  repeat
    first
    | exact subMask_refl x
    | exact subMask_or_left x _
    | apply subMask_ite
    | apply subMask_orStep

theorem platform_features_mono (env : SparcEnv) (pe : PiclEnv) (x : Nat) (g : VMGlobals) :
    subMask x (platform_features env pe x g).1 := by
  simp only [platform_features]
  apply subMask_trans (b :=
    if env.supports_getisax then
      getisax_branch env.arch32_is_sparc env.arch64_is_sparcv9 env.avn env.avs0 env.avs1 x
    else
      match env.isalist with
      | some buf => legacy_branch buf x
      | none => x)
  · apply subMask_ite
    · exact getisax_branch_mono _ _ _ _ _ _
    · cases env.isalist with
      | none => exact subMask_refl x
      | some buf => exact legacy_branch_mono buf x
  · apply subMask_trans (b :=
      if env.machine_is_sun4v then
        (if env.supports_getisax then
          getisax_branch env.arch32_is_sparc env.arch64_is_sparcv9 env.avn env.avs0 env.avs1 x
        else
          match env.isalist with
          | some buf => legacy_branch buf x
          | none => x) ||| sun4v_m
      else
        (if env.supports_getisax then
          getisax_branch env.arch32_is_sparc env.arch64_is_sparcv9 env.avn env.avs0 env.avs1 x
        else
          match env.isalist with
          | some buf => legacy_branch buf x
          | none => x))
    · apply subMask_ite
      · exact subMask_or_left _ _
      · exact subMask_refl _
    · cases env.implementation with
      | none => exact subMask_refl _
      | some impl => exact impl_branch_mono impl _

theorem uvVisit_snd (s : UVState) (r : Option Int) : (uvVisit s r).2 = r.isSome := by
  cases r <;> cases s <;> simp [uvVisit]

theorem uvVisit_fst_of_snd_false (s : UVState) (r : Option Int)
    (h : (uvVisit s r).2 = false) : (uvVisit s r).1 = s := by
  cases r <;> cases s <;> simp_all [uvVisit]

theorem isInconsistent_false_iff (s : UVState) :
    s.isInconsistent = false ↔ s ≠ UVState.inconsistent := by
  cases s <;> simp [UVState.isInconsistent]

/-- The name component of the L2 step: on the first node it is the
primary name when its read succeeded, else the fallback name; on later
nodes it is the already-memoized name. -/
theorem cpuVisitL2_snd (n : Node) (st : WalkState) :
    (cpuVisitL2 n st).2 =
      (match st.l2name with
       | none =>
         if (n.readL2 L2Name.primary).isSome then L2Name.primary else L2Name.fallback
       | some nm => nm) := by
  cases hnm : st.l2name with
  | none =>
    simp only [cpuVisitL2, hnm]
    rcases hv : uvVisit st.l2 (n.readL2 L2Name.primary) with ⟨s2, ok⟩
    have hok : ok = (n.readL2 L2Name.primary).isSome := by
      rw [← uvVisit_snd st.l2 (n.readL2 L2Name.primary), hv]
    cases ok with
    | true => simp [← hok]
    | false => simp [← hok]
  | some nm =>
    simp only [cpuVisitL2, hnm]
    split <;> rfl

/-- `CPUVisitor::visit` always leaves the memoized name set, to the name
the L2 step chose or reused. -/
theorem cpuVisit_l2name (n : Node) (st : WalkState) :
    (cpuVisit n st).1.l2name = some (cpuVisitL2 n st).2 := by
  simp only [cpuVisit]
  split <;> rfl

/-- When `CPUVisitor::visit` returns `PICL_WALK_CONTINUE`, the budget was
decremented and is still positive. -/
theorem cpuVisit_keepGoing (n : Node) (st st' : WalkState)
    (h : cpuVisit n st = (st', WalkCmd.keepGoing)) :
    st'.limit = st.limit - 1 ∧ 1 ≤ st'.limit := by
  simp only [cpuVisit] at h
  split at h
  · exact absurd (congrArg Prod.snd h) (by simp)
  · split at h
    · exact absurd (congrArg Prod.snd h) (by simp)
    · rename_i hlim
      injection h with ha hb
      subst ha
      refine ⟨rfl, ?_⟩
      show 1 ≤ st.limit - 1
      omega

/-- When the state `CPUVisitor::visit` leaves behind has both trackers
inconsistent, the callback returned `PICL_WALK_TERMINATE`. -/
theorem cpuVisit_terminate_of_inconsistent (n : Node) (st st' : WalkState) (cmd : WalkCmd)
    (h : cpuVisit n st = (st', cmd)) (h1 : st'.l1 = UVState.inconsistent)
    (h2 : st'.l2 = UVState.inconsistent) : cmd = WalkCmd.terminate := by
  simp only [cpuVisit] at h
  split at h
  · injection h with ha hb; exact hb.symm
  · rename_i hcond
    injection h with ha hb
    subst ha
    simp only at h1 h2
    rw [h1, h2] at hcond
    simp [UVState.isInconsistent] at hcond

/-- The walk visits at most `limit` nodes when the budget starts at 1 or
more. -/
theorem runWalk_count (nodes : List Node) : ∀ st : WalkState, 1 ≤ st.limit →
    (runWalk nodes st).2 ≤ st.limit.toNat := by
  induction nodes with
  | nil =>
    intro st h
    simp only [runWalk]
    omega
  | cons n rest ih =>
    intro st h
    simp only [runWalk]
    rcases hc : cpuVisit n st with ⟨st', cmd⟩
    cases cmd with
    | terminate => simp only []; omega
    | keepGoing =>
      obtain ⟨hl, hge⟩ := cpuVisit_keepGoing n st st' hc
      have hrec := ih st' hge
      simp only []
      omega

/-- When the first node's visit returns `PICL_WALK_TERMINATE`, the walk
stops there: exactly one node was visited, whatever nodes remain. -/
theorem runWalk_stop (nodes : List Node) (n : Node) (st : WalkState)
    (h : (cpuVisit n st).2 = WalkCmd.terminate) :
    runWalk (n :: nodes) st = ((cpuVisit n st).1, 1) := by
  simp only [runWalk]
  rcases hc : cpuVisit n st with ⟨st', cmd⟩
  rw [hc] at h
  simp only at h
  subst h
  rfl

/-- The memoized L2 property name survives the rest of the walk. -/
theorem runWalk_l2name (nodes : List Node) : ∀ (st : WalkState) (nm : L2Name),
    st.l2name = some nm → (runWalk nodes st).1.l2name = some nm := by
  induction nodes with
  | nil => intro st nm h; simpa [runWalk] using h
  | cons n rest ih =>
    intro st nm h
    simp only [runWalk]
    rcases hc : cpuVisit n st with ⟨st', cmd⟩
    have hpres : st'.l2name = some nm := by
      have hl := cpuVisit_l2name n st
      rw [hc, cpuVisitL2_snd, h] at hl
      simpa using hl
    cases cmd with
    | terminate => simpa using hpres
    | keepGoing => simpa using ih st' nm hpres

theorem uvVisitChecked_eq (s : UVState) (r : Option Int) (h : s ≠ UVState.inconsistent) :
    uvVisitChecked s r = some (uvVisit s r) := by
  cases s <;> cases r <;>
    simp_all [uvVisitChecked, uvVisit, UVState.isAssigned, UVState.value?]

theorem cpuVisitL1Checked_eq (n : Node) (st : WalkState) :
    cpuVisitL1Checked n st = some (cpuVisitL1 n st) := by
  by_cases h1 : st.l1.isInconsistent
  · simp [cpuVisitL1Checked, cpuVisitL1, h1]
  · have hne : st.l1 ≠ UVState.inconsistent :=
      (isInconsistent_false_iff st.l1).mp (by simpa using h1)
    simp [cpuVisitL1Checked, cpuVisitL1, h1, uvVisitChecked_eq st.l1 _ hne]

theorem cpuVisitL2Checked_eq (n : Node) (st : WalkState)
    (h : st.l2name = none → st.l2 ≠ UVState.inconsistent) :
    cpuVisitL2Checked n st = some (cpuVisitL2 n st) := by
  cases hnm : st.l2name with
  | none =>
    have hne := h hnm
    have h2 : st.l2.isInconsistent = false := (isInconsistent_false_iff st.l2).mpr hne
    simp only [cpuVisitL2Checked, cpuVisitL2, hnm, h2, Bool.false_eq_true, if_false]
    rcases hv : uvVisit st.l2 (n.readL2 L2Name.primary) with ⟨s2, ok⟩
    rw [uvVisitChecked_eq st.l2 (n.readL2 L2Name.primary) hne, hv]
    cases ok with
    | true => rfl
    | false =>
      have hs2 : s2 = st.l2 := by
        have hf := uvVisit_fst_of_snd_false st.l2 (n.readL2 L2Name.primary) (by rw [hv])
        rw [hv] at hf
        exact hf
      simp [uvVisitChecked_eq s2 (n.readL2 L2Name.fallback) (hs2 ▸ hne)]
  | some nm =>
    by_cases h2 : st.l2.isInconsistent
    · simp [cpuVisitL2Checked, cpuVisitL2, hnm, h2]
    · have hne : st.l2 ≠ UVState.inconsistent :=
        (isInconsistent_false_iff st.l2).mp (by simpa using h2)
      simp [cpuVisitL2Checked, cpuVisitL2, hnm, h2, uvVisitChecked_eq st.l2 _ hne]

/-- The assertion-checked `CPUVisitor::visit` agrees with the product one
whenever the L2 tracker is not inconsistent while the property name is
still unmemoized (the invariant the program maintains). -/
theorem cpuVisitChecked_eq (n : Node) (st : WalkState)
    (h : st.l2name = none → st.l2 ≠ UVState.inconsistent) :
    cpuVisitChecked n st = some (cpuVisit n st) := by
  simp only [cpuVisitChecked, cpuVisit, cpuVisitL1Checked_eq n st, cpuVisitL2Checked_eq n st h]
  split <;> rfl

/-- The walk never reaches a state with an unmemoized name and an
inconsistent L2 tracker after the first visit, so the checked walk agrees
with the product walk from any state satisfying the invariant. -/
theorem runWalkChecked_eq (nodes : List Node) : ∀ st : WalkState,
    (st.l2name = none → st.l2 ≠ UVState.inconsistent) →
    runWalkChecked nodes st = some (runWalk nodes st) := by
  induction nodes with
  | nil => intro st _; rfl
  | cons n rest ih =>
    intro st h
    simp only [runWalkChecked, runWalk, cpuVisitChecked_eq n st h]
    rcases hc : cpuVisit n st with ⟨st', cmd⟩
    have hinv : st'.l2name = none → st'.l2 ≠ UVState.inconsistent := by
      intro habs
      have hl := cpuVisit_l2name n st
      rw [hc] at hl
      simp only at hl
      rw [habs] at hl
      exact absurd hl (by simp)
    cases cmd with
    | terminate => simp
    | keepGoing => simp [ih st' hinv]

theorem readoutChecked_eq (st : WalkState) : readoutChecked st = some (readout st) := by
  rcases st with ⟨l1, l2, lim, nm⟩
  cases l1 <;> cases l2 <;>
    simp [readoutChecked, readout, UVState.isAssigned, UVState.value?]

theorem runReadings_initial_cons (v : Int) (rs : List Int) :
    runReadings UVState.initial (v :: rs) =
      if rs.all (fun x => x = v) then UVState.assigned v else UVState.inconsistent := by
  have h1 : runReadings UVState.initial (v :: rs) = runReadings (UVState.assigned v) rs := by
    simp [runReadings, feedReading_initial]
  rw [h1, runReadings_assigned]

/-- C1: for every sequence of successful readings fed to one cache-level
tracker during a walk, the first reading moves the tracker from Initial
to Assigned (never directly to Inconsistent); if all readings are equal
the tracker ends Assigned with that value; if any two readings differ it
ends Inconsistent; and Inconsistent is sticky under any further readings,
even matching ones. -/
theorem claim_C1_unique_value_tracker :
    (∀ v : Int, feedReading UVState.initial v = UVState.assigned v) ∧
    (∀ (v : Int) (rs : List Int), (∀ x ∈ rs, x = v) →
      runReadings UVState.initial (v :: rs) = UVState.assigned v) ∧
    (∀ (l : List Int) (a b : Int), a ∈ l → b ∈ l → a ≠ b →
      runReadings UVState.initial l = UVState.inconsistent) ∧
    (∀ v : Int, feedReading UVState.inconsistent v = UVState.inconsistent) ∧
    (∀ rs : List Int, runReadings UVState.inconsistent rs = UVState.inconsistent) := by
  refine ⟨feedReading_initial, ?_, ?_, feedReading_inconsistent, runReadings_inconsistent⟩
  · intro v rs h
    rw [runReadings_initial_cons, if_pos]
    simp only [List.all_eq_true, decide_eq_true_eq]
    exact h
  · intro l a b ha hb hne
    rcases l with _ | ⟨v, rs⟩
    · cases ha
    · rw [runReadings_initial_cons]
      by_cases hall : rs.all (fun x => x = v) = true


      · exfalso
        have hv : ∀ x ∈ v :: rs, x = v := by
          intro x hx
          rcases List.mem_cons.mp hx with h | h
          · exact h
          · simpa using List.all_eq_true.mp hall x h
        exact hne ((hv a ha).trans (hv b hb).symm)
      · simp [hall]

/-- One concrete run of each conditional part of the tracker claim. -/
theorem claim_C1_unique_value_tracker_witness :
    runReadings UVState.initial [64, 64, 64] = UVState.assigned 64 ∧
    runReadings UVState.initial [64, 32, 64] = UVState.inconsistent := by
  constructor
  · exact claim_C1_unique_value_tracker.2.1 64 [64, 64] (by decide)
  · exact claim_C1_unique_value_tracker.2.2.1 [64, 32, 64] 64 32 (by decide) (by decide)
      (by decide)

/-- The walk budget chosen by the `PICL` constructor: 1 on a sun4v
non-Fujitsu machine, else the logical processor count. -/
def configuredBudget (is_fujitsu is_sun4v : Bool) (processor_count : Int) : Int :=
  if is_sun4v && !is_fujitsu then 1 else processor_count

/-- C3: a walk visits at most the configured budget of nodes (1 for a
sun4v non-Fujitsu machine, else the processor count, assumed positive);
a visit that leaves both trackers Inconsistent returns
`PICL_WALK_TERMINATE`; and a terminating visit ends the walk at once,
whatever nodes and budget remain. -/
theorem claim_C3_walk_termination :
    (∀ (is_fujitsu is_sun4v : Bool) (pc : Int) (nodes : List Node), 1 ≤ pc →
      (runWalk nodes (initWalkState (configuredBudget is_fujitsu is_sun4v pc))).2 ≤
        (configuredBudget is_fujitsu is_sun4v pc).toNat) ∧
    (∀ (n : Node) (st st' : WalkState) (cmd : WalkCmd), cpuVisit n st = (st', cmd) →
      st'.l1 = UVState.inconsistent → st'.l2 = UVState.inconsistent →
      cmd = WalkCmd.terminate) ∧
    (∀ (nodes : List Node) (n : Node) (st : WalkState),
      (cpuVisit n st).2 = WalkCmd.terminate →
      runWalk (n :: nodes) st = ((cpuVisit n st).1, 1)) := by
  refine ⟨?_, cpuVisit_terminate_of_inconsistent, runWalk_stop⟩
  intro f s pc nodes hpc
  apply runWalk_count
  show 1 ≤ configuredBudget f s pc
  unfold configuredBudget
  split
  · omega
  · omega

/-- One concrete run of each part of the termination claim. -/
theorem claim_C3_walk_termination_witness :
    (runWalk [Node.mk (some 64) (some 128) none, Node.mk (some 32) (some 16) none]
      (initWalkState (configuredBudget false true 8))).2 ≤
        (configuredBudget false true 8).toNat ∧
    (cpuVisit (Node.mk (some 9) (some 7) none)
      (WalkState.mk (UVState.assigned 1) (UVState.assigned 2) 5 (some L2Name.primary))).2 =
        WalkCmd.terminate ∧
    runWalk [Node.mk (some 1) (some 2) none, Node.mk (some 3) (some 4) none]
        (initWalkState 1) =
      ((cpuVisit (Node.mk (some 1) (some 2) none) (initWalkState 1)).1, 1) := by
  refine ⟨?_, ?_, ?_⟩
  · exact claim_C3_walk_termination.1 false true 8 _ (by decide)
  · exact claim_C3_walk_termination.2.1 (Node.mk (some 9) (some 7) none)
      (WalkState.mk (UVState.assigned 1) (UVState.assigned 2) 5 (some L2Name.primary))
      (cpuVisit (Node.mk (some 9) (some 7) none)
        (WalkState.mk (UVState.assigned 1) (UVState.assigned 2) 5 (some L2Name.primary))).1
      (cpuVisit (Node.mk (some 9) (some 7) none)
        (WalkState.mk (UVState.assigned 1) (UVState.assigned 2) 5 (some L2Name.primary))).2
      rfl (by decide) (by decide)
  · exact claim_C3_walk_termination.2.2 _ _ _ (by decide)

/-- C4: the L2 property name is chosen on the first visited node — the
primary name when its read succeeds on that node, else the fallback name
attempted on the same node — and the memoized name is reused unchanged by
every later visit and across the rest of the walk. -/
theorem claim_C4_l2_name_memoization :
    (∀ (n : Node) (st : WalkState), st.l2name = none →
      (cpuVisit n st).1.l2name =
        some (if (n.readL2 L2Name.primary).isSome then L2Name.primary else L2Name.fallback)) ∧
    (∀ (n : Node) (st : WalkState) (nm : L2Name), st.l2name = some nm →
      (cpuVisit n st).1.l2name = some nm) ∧
    (∀ (nodes : List Node) (st : WalkState) (nm : L2Name), st.l2name = some nm →
      (runWalk nodes st).1.l2name = some nm) := by
  refine ⟨?_, ?_, runWalk_l2name⟩
  · intro n st h
    rw [cpuVisit_l2name, cpuVisitL2_snd, h]
  · intro n st nm h
    rw [cpuVisit_l2name, cpuVisitL2_snd, h]

/-- One concrete run of each part of the memoization claim: a first node
lacking the primary property memoizes the fallback name, and a memoized
primary name survives a later node that only offers the fallback
property. -/
theorem claim_C4_l2_name_memoization_witness :
    (cpuVisit (Node.mk (some 1) none (some 2)) (initWalkState 3)).1.l2name =
      some L2Name.fallback ∧
    (cpuVisit (Node.mk (some 1) none (some 2))
      (WalkState.mk UVState.initial UVState.initial 3 (some L2Name.primary))).1.l2name =
        some L2Name.primary ∧
    (runWalk [Node.mk (some 1) none (some 2)]
      (WalkState.mk UVState.initial UVState.initial 3 (some L2Name.primary))).1.l2name =
        some L2Name.primary := by
  refine ⟨?_, ?_, ?_⟩
  · have h := claim_C4_l2_name_memoization.1 (Node.mk (some 1) none (some 2))
      (initWalkState 3) rfl
    simpa using h
  · exact claim_C4_l2_name_memoization.2.1 _ _ L2Name.primary rfl
  · exact claim_C4_l2_name_memoization.2.2 _ _ L2Name.primary rfl

/-- C10: starting from the fresh visitor state, every assertion inside
the `UniqueValueVisitor` calls made by `CPUVisitor::visit` and by the
final readout holds at every call site: the assertion-checked walk and
readout never fail and agree with the product-semantics ones. -/
theorem claim_C10_assertions_unreachable : ∀ (nodes : List Node) (limit : Int),
    runWalkChecked nodes (initWalkState limit) = some (runWalk nodes (initWalkState limit)) ∧
    readoutChecked (runWalk nodes (initWalkState limit)).1 =
      some (readout (runWalk nodes (initWalkState limit)).1) := by
  intro nodes limit
  constructor
  · apply runWalkChecked_eq
    intro _
    show UVState.initial ≠ UVState.inconsistent
    decide
  · exact readoutChecked_eq _

/-- C2: `platform_features` is monotonic — for every caller-supplied
baseline and every combination of data-source outcomes, the returned
bitmask is a bitwise superset of the baseline; bits are only ever ORed
in, never cleared. -/
theorem claim_C2_platform_features_monotonic :
    ∀ (env : SparcEnv) (pe : PiclEnv) (features : Nat) (g : VMGlobals),
      features &&& (platform_features env pe features g).1 = features := by
  intro env pe features g
  exact subMask_and (platform_features_mono env pe features g)

/-- C5: if `dlopen` fails, or it succeeds but any one of the seven
required symbols does not resolve, the binding is Unavailable: the probe
reports 0 for both cache-line sizes, and the feature bitmask does not
depend on the cache probe at all. -/
theorem claim_C5_unavailable_binding :
    ∀ (e : PiclEnv) (is_fujitsu is_sun4v : Bool),
      (e.dlopen_ok = false ∨ e.sym_picl_init = false ∨ e.sym_picl_shutdown = false ∨
        e.sym_picl_get_root = false ∨ e.sym_picl_walk_tree_by_class = false ∨
        e.sym_picl_get_prop_by_name = false ∨ e.sym_picl_get_propval = false ∨
        e.sym_picl_get_propinfo = false) →
      open_library e = false ∧
      piclConstruct e is_fujitsu is_sun4v = (0, 0) ∧
      (∀ (env : SparcEnv) (x : Nat) (g : VMGlobals) (pe2 : PiclEnv),
        (platform_features env e x g).1 = (platform_features env pe2 x g).1) := by
  intro e f s h
  have hol : open_library e = false := by
    unfold open_library bind_library_functions
    rcases h with h | h | h | h | h | h | h | h <;> rw [h] <;> simp
  refine ⟨hol, ?_, ?_⟩
  · simp [piclConstruct, hol]
  · intro env x g pe2
    rfl

/-- A concrete partially-bound library: `dlopen` succeeded but the last
symbol is missing, so the probe reports zeros. -/
theorem claim_C5_unavailable_binding_witness :
    open_library
        (PiclEnv.mk true true true true true true true false true true [] [] 4) = false ∧
    piclConstruct
        (PiclEnv.mk true true true true true true true false true true [] [] 4)
        false false = (0, 0) := by
  have h := claim_C5_unavailable_binding
    (PiclEnv.mk true true true true true true true false true true [] [] 4) false false
    (Or.inr (Or.inr (Or.inr (Or.inr (Or.inr (Or.inr (Or.inr rfl)))))))
  exact ⟨h.1, h.2.1⟩

/-- C9: of the two cache-line sizes the probe computes, only the L2 value
is written into the process-wide CPU description state; the L1 field and
every other process-wide field are left unchanged. -/
theorem claim_C9_only_l2_written :
    ∀ (env : SparcEnv) (pe : PiclEnv) (x : Nat) (g : VMGlobals),
      (platform_features env pe x g).2.L1_data_cache_line_size = g.L1_data_cache_line_size ∧
      (platform_features env pe x g).2.rest = g.rest ∧
      (platform_features env pe x g).2.L2_data_cache_line_size =
        (piclConstruct pe
          ((platform_features env pe x g).1 &&& sparc64_family_m ≠ 0)
          ((platform_features env pe x g).1 &&& sun4v_m ≠ 0)).2 := by
  intro env pe x g
  exact ⟨rfl, rfl, rfl⟩

theorem or_and_eq_of_disjoint (x a b : Nat) (h : a &&& b = 0) :
    (x ||| a) &&& b = x &&& b := by
  apply Nat.eq_of_testBit_eq
  intro i
  have hb := congrArg (fun t => Nat.testBit t i) h
  simp only [Nat.testBit_and, Nat.zero_testBit] at hb
  simp only [Nat.testBit_and, Nat.testBit_or]
  cases hx : x.testBit i <;> cases ha : a.testBit i <;> cases hbb : b.testBit i <;> simp_all

/-- C8: on the legacy textual capability list `"sparc8"` (structured
query unsupported), this source sets exactly the v8 feature bit: the
hardware-mul32, hardware-div32 and v9 bits are left exactly as in the
baseline. -/
theorem claim_C8_legacy_sparc8 :
    ∀ x : Nat,
      legacy_branch "sparc8".toList x = x ||| v8_instructions_m ∧
      legacy_branch "sparc8".toList x &&& hardware_mul32_m = x &&& hardware_mul32_m ∧
      legacy_branch "sparc8".toList x &&& hardware_div32_m = x &&& hardware_div32_m ∧
      legacy_branch "sparc8".toList x &&& v9_instructions_m = x &&& v9_instructions_m := by
  intro x
  have h1 : legacy_branch "sparc8".toList x = x ||| v8_instructions_m := by
    unfold legacy_branch legacy_sparc_part legacy_vis_part
    rw [show strstrIdx "sparc8".toList ['s', 'p', 'a', 'r', 'c'] = some 0 from by decide]
    rw [show strstrIdx "sparc8".toList ['v', 'i', 's'] = none from by decide]
    simp only []
    rw [if_neg (show ¬(cstrAt "sparc8".toList (0 + 5) = 'v') from by decide)]
  refine ⟨h1, ?_, ?_, ?_⟩ <;> rw [h1] <;> exact or_and_eq_of_disjoint x _ _ (by decide)

theorem cContains_nil (n : List Char) : cContains [] n = n.isPrefixOf [] := by
  have hstep : strstrIdx [] n = if n.isPrefixOf [] then some 0 else none := rfl
  unfold cContains
  rw [hstep]
  by_cases h : n.isPrefixOf [] <;> simp [h]

theorem cContains_cons (c : Char) (t n : List Char) :
    cContains (c :: t) n = (n.isPrefixOf (c :: t) || cContains t n) := by
  have hstep : strstrIdx (c :: t) n =
      if n.isPrefixOf (c :: t) then some 0 else (strstrIdx t n).map (· + 1) := rfl
  unfold cContains
  rw [hstep]
  by_cases h : n.isPrefixOf (c :: t)
  · simp [h]
  · cases hs : strstrIdx t n <;> simp [h, hs]

theorem isPrefixOf_eq_true_iff (a b : List Char) : a.isPrefixOf b = true ↔ a <+: b :=
  List.isPrefixOf_iff_prefix

/-- A haystack that contains a needle also contains every leading part of
that needle. -/
theorem cContains_of_le (hay n1 n2 : List Char) (hp : n2 <+: n1) :
    cContains hay n1 = true → cContains hay n2 = true := by
  induction hay with
  | nil =>
    intro h
    rw [cContains_nil] at h ⊢
    exact (isPrefixOf_eq_true_iff n2 []).mpr
      (hp.trans ((isPrefixOf_eq_true_iff n1 []).mp h))
  | cons c t ih =>
    intro h
    rw [cContains_cons] at h ⊢
    rcases Bool.or_eq_true_iff.mp h with h1 | h1
    · exact Bool.or_eq_true_iff.mpr (Or.inl ((isPrefixOf_eq_true_iff n2 (c :: t)).mpr
        (hp.trans ((isPrefixOf_eq_true_iff n1 (c :: t)).mp h1))))
    · exact Bool.or_eq_true_iff.mpr (Or.inr (ih h1))

/-- C6, as amended: an uppercased implementation string containing the
`"SPARC-M"` marker but not `"SPARC64"` (checked first) yields both the
M-family and the T-family bits; one containing the `"SPARC-T1"` marker
but neither `"SPARC64"` nor `"SPARC-M"` (both checked first) yields both
the T-family and the T1-model bits. -/
theorem claim_C6_family_bits :
    ∀ (implementation : List Char) (x : Nat),
      (cContains (implementation.map Char.toUpper) "SPARC-M".toList = true →
        cContains (implementation.map Char.toUpper) "SPARC64".toList = false →
        subMask (M_family_m ||| T_family_m) (impl_branch implementation x)) ∧
      (cContains (implementation.map Char.toUpper) "SPARC-T1".toList = true →
        cContains (implementation.map Char.toUpper) "SPARC64".toList = false →
        cContains (implementation.map Char.toUpper) "SPARC-M".toList = false →
        subMask (T_family_m ||| T1_model_m) (impl_branch implementation x)) := by
  intro impl x
  constructor
  · intro hm h64
    simp only [impl_branch, h64, hm, Bool.false_eq_true, if_false, if_true]
    exact subMask_or_right _ _
  · intro ht1 h64 hm
    have ht : cContains (impl.map Char.toUpper) "SPARC-T".toList = true :=
      cContains_of_le _ _ _ ⟨['1'], by decide⟩ ht1
    simp only [impl_branch, h64, hm, ht, ht1, Bool.false_eq_true, if_false, if_true]
    rw [Nat.or_assoc]
    exact subMask_or_right _ _

/-- The claim as frozen is false on the code: the string
`"SPARC-T1 SPARC-M"` contains the `"SPARC-T1"` marker, yet the T1-model
bit is not set, because the `"SPARC-M"` branch is taken first. -/
theorem claim_C6_family_bits_counterexample :
    cContains (("SPARC-T1 SPARC-M".toList).map Char.toUpper) "SPARC-T1".toList = true ∧
    impl_branch "SPARC-T1 SPARC-M".toList 0 &&& T1_model_m = 0 := by
  constructor
  · decide
  · decide

/-- Concrete runs of both amended family-bit derivations. -/
theorem claim_C6_family_bits_witness :
    subMask (M_family_m ||| T_family_m) (impl_branch "SPARC-M8".toList 0) ∧
    subMask (T_family_m ||| T1_model_m) (impl_branch "SPARC-T1".toList 0) := by
  constructor
  · exact (claim_C6_family_bits "SPARC-M8".toList 0).1 (by decide) (by decide)
  · exact (claim_C6_family_bits "SPARC-T1".toList 0).2 (by decide) (by decide) (by decide)

theorem orIf_pos {c : Prop} [Decidable c] (h : c) (x m : Nat) : orIf c x m = x ||| m :=
  if_pos h

theorem orIf_neg {c : Prop} [Decidable c] (h : ¬c) (x m : Nat) : orIf c x m = x :=
  if_neg h

/-- C7: when the structured capability query reports exactly the
32-bit-multiply, 32-bit-divide, VIS1 and VIS2 bits (and the second word,
if present, reports nothing), and neither architecture string matches,
the branch adds exactly the four corresponding feature bits to the
baseline and no others. -/
theorem claim_C7_getisax_exact_bits :
    ∀ (avn avs1 x : Nat),
      (avn > 1 → avs1 &&& AV2_SPARC_SPARC5 = 0) →
      getisax_branch false false avn
          (AV_SPARC_MUL32 ||| AV_SPARC_DIV32 ||| AV_SPARC_VIS ||| AV_SPARC_VIS2) avs1 x =
        x ||| (hardware_mul32_m ||| hardware_div32_m |||
          vis1_instructions_m ||| vis2_instructions_m) := by
  intro avn avs1 x h
  show (if avn > 1 then
      orIf (avs1 &&& AV2_SPARC_SPARC5 ≠ 0)
        (x ||| hardware_mul32_m ||| hardware_div32_m ||| vis1_instructions_m |||
          vis2_instructions_m)
        sparc5_instructions_m
    else
      x ||| hardware_mul32_m ||| hardware_div32_m ||| vis1_instructions_m |||
        vis2_instructions_m) =
    x ||| (hardware_mul32_m ||| hardware_div32_m ||| vis1_instructions_m |||
      vis2_instructions_m)
  by_cases hn : avn > 1
  · rw [if_pos hn, orIf_neg (show ¬(avs1 &&& AV2_SPARC_SPARC5 ≠ 0) from by simp [h hn])]
    simp [Nat.or_assoc]
  · rw [if_neg hn]
    simp [Nat.or_assoc]

/-- A concrete query reporting exactly the four capability bits in one
word: the result is the baseline plus exactly the four feature bits. -/
theorem claim_C7_getisax_exact_bits_witness :
    getisax_branch false false 1
        (AV_SPARC_MUL32 ||| AV_SPARC_DIV32 ||| AV_SPARC_VIS ||| AV_SPARC_VIS2) 0 0 =
      hardware_mul32_m ||| hardware_div32_m ||| vis1_instructions_m ||| vis2_instructions_m := by
  have h := claim_C7_getisax_exact_bits 1 0 0 (by omega)
  rw [h]
  decide

end SparcProbe
